import Mathlib

/-!
Verification of the entry-metadata core of `libarchive/entry.py`
(python-libarchive-c, versity fork).

The Python module is embedded shallowly:

* Python `str` values are lists of Unicode code points (`List Nat`);
  Python code points may be lone surrogates (surrogate-escape decoding),
  which Lean's `Char` cannot hold, hence the `List Nat` representation.
* Python `bytes` / `bytearray` values are lists of byte values (`List Nat`).
* Raised Python exceptions are `Except PyErr` results.
* Python `float` results are modelled as exact rationals (`ℚ`); the spec's
  time-codec formula is the exact value, and IEEE rounding for very large
  second counts is outside the model (the spec flags it as a known
  limitation).
* The foreign archive engine (the `ffi` module, which the entry module
  calls but whose code is outside the verified sources) is modelled from
  the spec's external-interface contract as an explicit state record
  (`EngineEntry`) with a cursor per iteration protocol and a trace of the
  registration calls the entry layer issues.
-/

/-- Python exceptions raised (or propagated) by the entry module. -/
inductive PyErr where
  /-- `ValueError(msg)`; the message is kept so that the distinct guards
      (`"attempt to use entry_p when not valid"`, `"need string keys"`)
      stay distinguishable. -/
  | valueError (msg : String)
  /-- `NotImplementedError` from the disabled `SparseMap` mutators. -/
  | notImplementedError
  /-- `UnicodeDecodeError` from a strict `.decode('utf-8')`. -/
  | unicodeDecodeError
  /-- Modelled from the spec: the engine (`ffi` module) is invoked with an
      invalidated (null) entry handle.  The spec gives the engine no defined
      behavior for this, so it is modelled as a distinguished crash outcome,
      distinct from any guard the entry layer itself raises. -/
  | nullHandleCrash
  deriving DecidableEq, Repr

/-- A Python numeric result: `int` or `float` (floats as exact rationals). -/
inductive PyNum where
  | int (i : Int)
  | float (q : ℚ)
  deriving DecidableEq, Repr

/-- A Python value as used by the PAX header logic: `str` (code points),
    `bytes` (byte values), or a non-string example type (`int`) standing for
    the "any other type" that `PaxHeaders.__setitem__` coerces via `str()`. -/
inductive PyVal where
  | str (cps : List Nat)
  | bytes (bs : List Nat)
  | int (i : Int)
  /-- Python `None` (only produced by the pathname getter when both engine
      accessors return `None`). -/
  | pyNone
  deriving DecidableEq, Repr

/-! ### UTF-8 decoding (CPython codec, shallowly embedded)

`utf8Tokens` scans a byte list exactly as CPython's strict UTF-8 decoder
does, producing a `chr` token for every well-formed sequence and a `bad`
token for every byte at which strict decoding errs (invalid start byte,
invalid continuation, truncated sequence, overlong form, encoded
surrogate, out-of-range).  After a failed sequence the scan resumes at the
byte following the failed start byte; each invalid byte of a span is then
flagged individually, which reproduces CPython's surrogate-escape output
byte for byte. -/

/-- One token of the UTF-8 scan: a decoded code point or an offending byte. -/
inductive Utf8Tok where
  | chr (cp : Nat)
  | bad (b : Nat)
  deriving DecidableEq, Repr

/-- Is `b` a UTF-8 continuation byte (`0x80`–`0xBF`)? -/
def utf8IsCont (b : Nat) : Bool := 0x80 ≤ b && b ≤ 0xBF

/-- Constraint on the second byte of a 3- or 4-byte sequence with start
    byte `b` (rules out overlong forms and encoded surrogates, per the
    CPython strict UTF-8 decoder). -/
def utf8Cont2Ok (b b2 : Nat) : Bool :=
  if b = 0xE0 then 0xA0 ≤ b2 && b2 ≤ 0xBF
  else if b = 0xED then 0x80 ≤ b2 && b2 ≤ 0x9F
  else if b = 0xF0 then 0x90 ≤ b2 && b2 ≤ 0xBF
  else if b = 0xF4 then 0x80 ≤ b2 && b2 ≤ 0x8F
  else utf8IsCont b2

/-- One step of the UTF-8 scan at head byte `b` with remaining bytes `r`:
    the token for the sequence starting at `b`, and the rest of the input
    after that sequence (bundled with the facts that the rest is no longer
    than `r` and draws its bytes from `r`, which drive termination and the
    scan invariants).  On any malformed sequence the step emits `bad b` and
    resumes directly after `b`; `utf8IsCont`-failing bytes of the span are
    then flagged by the following steps, which reproduces CPython's
    surrogate-escape output byte for byte. -/
def utf8Step (b : Nat) (r : List Nat) :
    Utf8Tok × {r2 : List Nat // r2.length ≤ r.length ∧ ∀ x ∈ r2, x ∈ r} :=
  if b ≤ 0x7F then (.chr b, ⟨r, by simp⟩)
  else if 0xC2 ≤ b && b ≤ 0xDF then
    match r with
    | b2 :: r2 =>
      if utf8IsCont b2 then
        (.chr (0x40 * (b - 0xC0) + (b2 - 0x80)),
         ⟨r2, by refine ⟨by simp, fun x hx => by simp [hx]⟩⟩)
      else (.bad b, ⟨b2 :: r2, by simp⟩)
    | [] => (.bad b, ⟨[], by simp⟩)
  else if 0xE0 ≤ b && b ≤ 0xEF then
    match r with
    | b2 :: b3 :: r3 =>
      if utf8Cont2Ok b b2 && utf8IsCont b3 then
        (.chr (0x1000 * (b - 0xE0) + 0x40 * (b2 - 0x80) + (b3 - 0x80)),
         ⟨r3, by refine ⟨by simp; omega, fun x hx => by simp [hx]⟩⟩)
      else (.bad b, ⟨b2 :: b3 :: r3, by simp⟩)
    | other => (.bad b, ⟨other, by simp⟩)
  else if 0xF0 ≤ b && b ≤ 0xF4 then
    match r with
    | b2 :: b3 :: b4 :: r4 =>
      if utf8Cont2Ok b b2 && utf8IsCont b3 && utf8IsCont b4 then
        (.chr (0x40000 * (b - 0xF0) + 0x1000 * (b2 - 0x80)
               + 0x40 * (b3 - 0x80) + (b4 - 0x80)),
         ⟨r4, by refine ⟨by simp; omega, fun x hx => by simp [hx]⟩⟩)
      else (.bad b, ⟨b2 :: b3 :: b4 :: r4, by simp⟩)
    | other => (.bad b, ⟨other, by simp⟩)
  else (.bad b, ⟨r, by simp⟩)

/-- The scan loop, structurally recursive on a fuel argument.  Each step
    consumes at least the head byte, so seeding the fuel with the byte
    count (as `utf8Tokens` does) makes the zero-fuel branch unreachable. -/
def utf8TokensGo : Nat → List Nat → List Utf8Tok
  | _, [] => []
  | 0, _ :: _ => []
  | n + 1, b :: r =>
    let p := utf8Step b r
    p.1 :: utf8TokensGo n p.2.1

/-- Scan a byte list into UTF-8 tokens (see section comment). -/
def utf8Tokens (l : List Nat) : List Utf8Tok := utf8TokensGo l.length l

/-- Strict decode over a token list: any `bad` token is a `UnicodeDecodeError`. -/
def utf8StrictTok : List Utf8Tok → Option (List Nat)
  | [] => some []
  | .chr c :: ts => (utf8StrictTok ts).map (c :: ·)
  | .bad _ :: _ => none

/-- `bytes.decode('utf-8')` (strict): `none` models a raised
    `UnicodeDecodeError`. -/
def utf8DecodeStrict (bs : List Nat) : Option (List Nat) :=
  utf8StrictTok (utf8Tokens bs)

/-- The `surrogateescape` error handler applied over a token list: an
    undecodable byte `b` becomes the lone surrogate `0xDC00 + b`; the
    handler itself errs if asked to escape a byte outside `0x80`–`0xFF`
    (exactly CPython's handler). -/
def utf8SeTok : List Utf8Tok → Except Unit (List Nat)
  | [] => .ok []
  | .chr c :: ts => (utf8SeTok ts).map (c :: ·)
  | .bad b :: ts =>
    if 0x80 ≤ b && b ≤ 0xFF then (utf8SeTok ts).map ((0xDC00 + b) :: ·)
    else .error ()

/-- `bytes.decode('utf-8', 'surrogateescape')`. -/
def utf8DecodeSE (bs : List Nat) : Except Unit (List Nat) :=
  utf8SeTok (utf8Tokens bs)

/-- `bytes.decode('utf-8', 'replace')`, used inside `urllib`'s `unquote`:
    undecodable bytes become `U+FFFD`.  (Granularity note: this model emits
    one replacement character per offending byte; no verified statement
    depends on the replacement count.) -/
def utf8DecodeReplace (bs : List Nat) : List Nat :=
  (utf8Tokens bs).map (fun t => match t with | .chr c => c | .bad _ => 0xFFFD)

/-! ### Percent-decoding (`urllib.parse.unquote`) -/

/-- Value of an ASCII hex digit, if any. -/
def hexVal (c : Nat) : Option Nat :=
  if 0x30 ≤ c && c ≤ 0x39 then some (c - 0x30)
  else if 0x41 ≤ c && c ≤ 0x46 then some (c - 0x37)
  else if 0x61 ≤ c && c ≤ 0x66 then some (c - 0x57)
  else none

/-- Worker for `unquote`, structurally recursive on a fuel argument
    (seeded with the input length, which suffices because every recursive
    call drops at least one input character): `buf` accumulates the bytes
    of the current maximal run of `%XX` escapes; any other character
    flushes the run through the UTF-8 decoder with the `replace` error
    handler (the `unquote` defaults) and passes through unchanged. -/
def unquoteAux : Nat → List Nat → List Nat → List Nat
  | _, buf, [] => utf8DecodeReplace buf
  | 0, buf, _ :: _ => utf8DecodeReplace buf
  | n + 1, buf, c :: rest =>
    if c = 0x25 then
      match rest with
      | h1 :: h2 :: rest2 =>
        match hexVal h1, hexVal h2 with
        | some hi, some lo => unquoteAux n (buf ++ [0x10 * hi + lo]) rest2
        | _, _ => utf8DecodeReplace buf ++ c :: unquoteAux n [] rest
      | _ => utf8DecodeReplace buf ++ c :: unquoteAux n [] rest
    else utf8DecodeReplace buf ++ c :: unquoteAux n [] rest

/-- `urllib.parse.unquote` on a Python string (code points in, code points
    out): maximal runs of `%XX` escapes are collected into bytes and decoded
    as UTF-8 with `replace`; everything else passes through. -/
def unquote (cps : List Nat) : List Nat := unquoteAux cps.length [] cps

/-! ### Time codec (`format_time`) -/

/-- `format_time(seconds, nanos)` from `entry.py`: when `nanos` is truthy
    (non-zero) the result is the Python float
    `float(seconds) + float(nanos) / 1000000000.0`, modelled as the exact
    rational; otherwise the Python int `seconds`. -/
def format_time (seconds nanos : Int) : PyNum :=
  if nanos ≠ 0 then PyNum.float ((seconds : ℚ) + (nanos : ℚ) / 1000000000)
  else PyNum.int seconds

/-! ### The external archive engine (the `ffi` module)

The entry module delegates all archive-format work to the `ffi` bindings,
whose code lies outside the verified sources.  The engine state behind one
entry handle is therefore modelled from the spec's external-interface
contract: scalar fields for the typed accessors, a block list plus cursor
for each of the two stateful iteration protocols (sparse blocks, PAX
records), and a trace of the registration (`add`) calls issued by the
entry layer. -/

/-- `ffi.ARCHIVE_OK` status code. -/
def ARCHIVE_OK : Int := 0

/-- `ARCHIVE_WARN` status code, the end-of-iteration signal. -/
def ARCHIVE_WARN : Int := -20

/-- Modelled from the spec: engine state behind one entry handle (the `ffi`
    module's side of the foreign contract; its code is external).  `paxAdds`
    and `sparseAdds` record the calls made to the two registration
    primitives. -/
structure EngineEntry where
  filetypeVal : Int := 0
  modeVal : Int := 0
  uidVal : Int := 0
  gidVal : Int := 0
  sizeVal : Int := 0
  sizeIsSet : Bool := false
  atimeSec : Int := 0
  atimeNsec : Int := 0
  pathnameW : Option (List Nat) := none
  pathnameB : Option (List Nat) := none
  sparseBlocks : List (Int × Int) := []
  sparseCursor : Nat := 0
  sparseAdds : List (Int × Int) := []
  paxRecords : List (List Nat × List Nat) := []
  paxCursor : Nat := 0
  paxAdds : List (List Nat × PyVal × Nat) := []
  deriving DecidableEq, Repr

/-- Modelled from the spec: sparse protocol "reset-cursor"
    (`ffi.entry_sparse_reset`). -/
def ffi_entry_sparse_reset (g : EngineEntry) : EngineEntry :=
  { g with sparseCursor := 0 }

/-- Modelled from the spec: sparse protocol "next-block → (offset,length) |
    end-signal" (`ffi.entry_sparse_next`); the end signal is a status other
    than `ARCHIVE_OK` (the `ARCHIVE_WARN` the source comments name). -/
def ffi_entry_sparse_next (g : EngineEntry) : Int × (Int × Int) × EngineEntry :=
  match g.sparseBlocks.drop g.sparseCursor with
  | [] => (ARCHIVE_WARN, (0, 0), g)
  | bl :: _ => (ARCHIVE_OK, bl, { g with sparseCursor := g.sparseCursor + 1 })

/-- Modelled from the spec: sparse protocol "add-block(offset,length)"
    (`ffi.entry_sparse_add_entry`), the registration primitive; recorded in
    the `sparseAdds` trace, leaving the iteration state untouched. -/
def ffi_entry_sparse_add_entry (g : EngineEntry) (offset length : Int) : EngineEntry :=
  { g with sparseAdds := g.sparseAdds ++ [(offset, length)] }

/-- Modelled from the spec: PAX protocol "reset-cursor"
    (`ffi.entry_pax_kw_reset`). -/
def ffi_entry_pax_kw_reset (g : EngineEntry) : EngineEntry :=
  { g with paxCursor := 0 }

/-- Modelled from the spec: PAX protocol "next-record → (key bytes, value
    pointer, value length) | end-signal" (`ffi.entry_pax_kw_next`). -/
def ffi_entry_pax_kw_next (g : EngineEntry) : Int × (List Nat × List Nat) × EngineEntry :=
  match g.paxRecords.drop g.paxCursor with
  | [] => (ARCHIVE_WARN, ([], []), g)
  | r :: _ => (ARCHIVE_OK, r, { g with paxCursor := g.paxCursor + 1 })

/-- Modelled from the spec: PAX protocol "add-record(key, value, length)"
    (`ffi.entry_pax_kw_add_entry`); recorded in the `paxAdds` trace with the
    length argument the caller passed. -/
def ffi_entry_pax_kw_add_entry (g : EngineEntry) (key : List Nat) (value : PyVal)
    (length : Nat) : EngineEntry :=
  { g with paxAdds := g.paxAdds ++ [(key, value, length)] }

/-- Modelled from the spec: a scalar accessor called with the raw `_entry_p`
    pointer.  On an invalidated (null) handle the foreign call proceeds into
    the engine with a dead pointer; the spec defines no behavior for that, so
    it is modelled as the distinguished `nullHandleCrash` outcome. -/
def ffi_entry_filetype : Option EngineEntry → Except PyErr Int
  | none => .error .nullHandleCrash
  | some g => .ok g.filetypeVal

/-- Modelled from the spec: scalar accessor `ffi.entry_uid` (see
    `ffi_entry_filetype` for the null-handle convention). -/
def ffi_entry_uid : Option EngineEntry → Except PyErr Int
  | none => .error .nullHandleCrash
  | some g => .ok g.uidVal

/-- Modelled from the spec: scalar accessor `ffi.entry_gid`. -/
def ffi_entry_gid : Option EngineEntry → Except PyErr Int
  | none => .error .nullHandleCrash
  | some g => .ok g.gidVal

/-- Modelled from the spec: scalar accessor `ffi.entry_mode`. -/
def ffi_entry_mode : Option EngineEntry → Except PyErr Int
  | none => .error .nullHandleCrash
  | some g => .ok g.modeVal

/-- Modelled from the spec: accessor `ffi.entry_size_is_set`. -/
def ffi_entry_size_is_set : Option EngineEntry → Except PyErr Bool
  | none => .error .nullHandleCrash
  | some g => .ok g.sizeIsSet

/-- Modelled from the spec: scalar accessor `ffi.entry_size`. -/
def ffi_entry_size : Option EngineEntry → Except PyErr Int
  | none => .error .nullHandleCrash
  | some g => .ok g.sizeVal

/-- Modelled from the spec: scalar accessor `ffi.entry_atime`. -/
def ffi_entry_atime : Option EngineEntry → Except PyErr Int
  | none => .error .nullHandleCrash
  | some g => .ok g.atimeSec

/-- Modelled from the spec: scalar accessor `ffi.entry_atime_nsec`. -/
def ffi_entry_atime_nsec : Option EngineEntry → Except PyErr Int
  | none => .error .nullHandleCrash
  | some g => .ok g.atimeNsec

/-- Modelled from the spec: wide pathname accessor `ffi.entry_pathname_w`;
    `none` models a NULL result (Python `None`). -/
def ffi_entry_pathname_w : Option EngineEntry → Except PyErr (Option (List Nat))
  | none => .error .nullHandleCrash
  | some g => .ok g.pathnameW

/-- Modelled from the spec: narrow (bytes) pathname accessor
    `ffi.entry_pathname`. -/
def ffi_entry_pathname : Option EngineEntry → Except PyErr (Option (List Nat))
  | none => .error .nullHandleCrash
  | some g => .ok g.pathnameB

/-! ### `ArchiveEntry`: the entry metadata view -/

/-- The `ArchiveEntry` wrapper.  `_entry_p` is the raw handle attribute;
    `none` models an invalidated handle (the archive stream advanced past
    the member, or the handle was freed), which Python's
    `if not self._entry_p` treats as falsy. -/
structure ArchiveEntry where
  _entry_p : Option EngineEntry
  deriving DecidableEq, Repr

/-- The guarded `entry_p` property:
    `if not self._entry_p: raise ValueError("attempt to use entry_p when not valid")`. -/
def ArchiveEntry.entry_p (a : ArchiveEntry) : Except PyErr EngineEntry :=
  match a._entry_p with
  | none => .error (.valueError ("attempt to use entry_p when not valid"))
  | some g => .ok g

/-- Property `filetype`: `ffi.entry_filetype(self._entry_p)` — note the raw
    attribute, not the guarded `entry_p` property. -/
def ArchiveEntry.filetype (a : ArchiveEntry) : Except PyErr Int :=
  ffi_entry_filetype a._entry_p

/-- Property `uid`: `ffi.entry_uid(self._entry_p)`. -/
def ArchiveEntry.uid (a : ArchiveEntry) : Except PyErr Int :=
  ffi_entry_uid a._entry_p

/-- Property `gid`: `ffi.entry_gid(self._entry_p)`. -/
def ArchiveEntry.gid (a : ArchiveEntry) : Except PyErr Int :=
  ffi_entry_gid a._entry_p

/-- Property `mode`: `ffi.entry_mode(self._entry_p)`. -/
def ArchiveEntry.mode (a : ArchiveEntry) : Except PyErr Int :=
  ffi_entry_mode a._entry_p

/-- Property `atime`: the two per-field accessors combined by
    `format_time`. -/
def ArchiveEntry.atime (a : ArchiveEntry) : Except PyErr PyNum := do
  let sec_val ← ffi_entry_atime a._entry_p
  let nsec_val ← ffi_entry_atime_nsec a._entry_p
  pure (format_time sec_val nsec_val)

/-- Property `size`: present only when the engine reports size-is-set
    (otherwise the Python property falls off the end and returns `None`,
    modelled as `none`). -/
def ArchiveEntry.size (a : ArchiveEntry) : Except PyErr (Option Int) := do
  let isSet ← ffi_entry_size_is_set a._entry_p
  if isSet then do
    let s ← ffi_entry_size a._entry_p
    pure (some s)
  else pure none

/-- `_getpathname`: `ffi.entry_pathname_w(...) or ffi.entry_pathname(...)`
    (Python `or`: an absent or empty wide name falls back to the narrow
    accessor), then bytes results are decoded as UTF-8 with
    surrogate-escape. -/
def ArchiveEntry.pathname (a : ArchiveEntry) : Except PyErr PyVal := do
  let w ← ffi_entry_pathname_w a._entry_p
  if (w.getD []).isEmpty then do
    let n ← ffi_entry_pathname a._entry_p
    match n with
    | some bs =>
      match utf8DecodeSE bs with
      | .ok cps => pure (.str cps)
      | .error _ => .error .unicodeDecodeError
    | none => pure .pyNone
  else pure (.str (w.getD []))

/-- Classification predicate `isblk`:
    `self.filetype & 0o170000 == 0o060000`. -/
def ArchiveEntry.isblk (a : ArchiveEntry) : Except PyErr Bool :=
  (a.filetype).map (fun ft => Int.land ft 0o170000 == 0o060000)

/-- Classification predicate `ischr`:
    `self.filetype & 0o170000 == 0o020000`. -/
def ArchiveEntry.ischr (a : ArchiveEntry) : Except PyErr Bool :=
  (a.filetype).map (fun ft => Int.land ft 0o170000 == 0o020000)

/-- Classification predicate `isdir`:
    `self.filetype & 0o170000 == 0o040000`. -/
def ArchiveEntry.isdir (a : ArchiveEntry) : Except PyErr Bool :=
  (a.filetype).map (fun ft => Int.land ft 0o170000 == 0o040000)

/-- Classification predicate `isfifo`:
    `self.filetype & 0o170000 == 0o010000`. -/
def ArchiveEntry.isfifo (a : ArchiveEntry) : Except PyErr Bool :=
  (a.filetype).map (fun ft => Int.land ft 0o170000 == 0o010000)

/-- Classification predicate `issym`:
    `self.filetype & 0o170000 == 0o120000`. -/
def ArchiveEntry.issym (a : ArchiveEntry) : Except PyErr Bool :=
  (a.filetype).map (fun ft => Int.land ft 0o170000 == 0o120000)

/-- Classification predicate `isreg`:
    `self.filetype & 0o170000 == 0o100000`. -/
def ArchiveEntry.isreg (a : ArchiveEntry) : Except PyErr Bool :=
  (a.filetype).map (fun ft => Int.land ft 0o170000 == 0o100000)

/-- Classification predicate `issock`:
    `self.filetype & 0o170000 == 0o140000`. -/
def ArchiveEntry.issock (a : ArchiveEntry) : Except PyErr Bool :=
  (a.filetype).map (fun ft => Int.land ft 0o170000 == 0o140000)

/-- `isdev`: `self.ischr or self.isblk or self.isfifo or self.issock`
    (Python `or`, short-circuiting left to right). -/
def ArchiveEntry.isdev (a : ArchiveEntry) : Except PyErr Bool := do
  let c ← a.ischr
  if c then pure true else do
  let bk ← a.isblk
  if bk then pure true else do
  let f ← a.isfifo
  if f then pure true else a.issock

/-! ### PAX key/value codec (`decode_pax_kw`) and the two generators -/

/-- `decode_pax_kw(key, value, value_len)`: the key bytes are strictly
    UTF-8-decoded (`key.value.decode('utf-8')` — a failure raises
    `UnicodeDecodeError` to the caller) and then percent-decoded with
    `unquote`; the value bytes are decoded as UTF-8 with surrogate-escape,
    falling back to the raw bytes if that decode raises. -/
def decode_pax_kw (key value : List Nat) : Except PyErr (List Nat × PyVal) :=
  match utf8DecodeStrict key with
  | none => .error .unicodeDecodeError
  | some ks =>
    let key_str := unquote ks
    let val_str := match utf8DecodeSE value with
      | .ok cps => PyVal.str cps
      | .error _ => PyVal.bytes value
    .ok (key_str, val_str)

/-- The `entry_sparse_map` generator, drained to a list: it pulls
    `ffi.entry_sparse_next` until the status differs from `ARCHIVE_OK`, at
    which point its `raise StopIteration()` ends the iteration — under the
    generator protocol this module targets, that is normal exhaustion of
    the sequence, not an exception at the consumer.  The result is the
    yielded `(offset, length)` list together with the engine state after
    the drain. -/
def entry_sparse_map (g : EngineEntry) : List (Int × Int) × EngineEntry :=
  match hnext : ffi_entry_sparse_next g with
  | (st, bl, g1) =>
    if hok : st = ARCHIVE_OK then
      let rest := entry_sparse_map g1
      (bl :: rest.1, rest.2)
    else ([], g1)
termination_by g.sparseBlocks.length - g.sparseCursor
decreasing_by
  subst hok
  unfold ffi_entry_sparse_next at hnext
  rcases hd : g.sparseBlocks.drop g.sparseCursor with _ | ⟨bl2, tl⟩ <;>
    rw [hd] at hnext <;> simp [ARCHIVE_OK, ARCHIVE_WARN] at hnext
  have hc : g.sparseCursor < g.sparseBlocks.length := by
    by_contra hge
    push_neg at hge
    rw [List.drop_eq_nil_of_le hge] at hd
    cases hd
  obtain ⟨h1, rfl⟩ := hnext
  simp
  omega

/-- The `entry_pax_kw` generator, drained to a list: it pulls
    `ffi.entry_pax_kw_next` until a status other than `ARCHIVE_OK`
    (`raise StopIteration()` — normal exhaustion, as for the sparse
    generator), decoding each record with `decode_pax_kw`; a decode failure
    propagates to the consumer as a raised exception. -/
def entry_pax_kw (g : EngineEntry) :
    Except PyErr (List (List Nat × PyVal)) × EngineEntry :=
  match hnext : ffi_entry_pax_kw_next g with
  | (st, r, g1) =>
    if hok : st = ARCHIVE_OK then
      match decode_pax_kw r.1 r.2 with
      | .error e => (.error e, g1)
      | .ok p =>
        match entry_pax_kw g1 with
        | (.ok rest, g2) => (.ok (p :: rest), g2)
        | (.error e, g2) => (.error e, g2)
    else (.ok [], g1)
termination_by g.paxRecords.length - g.paxCursor
decreasing_by
  subst hok
  unfold ffi_entry_pax_kw_next at hnext
  rcases hd : g.paxRecords.drop g.paxCursor with _ | ⟨r2, tl⟩ <;>
    rw [hd] at hnext <;> simp [ARCHIVE_OK, ARCHIVE_WARN] at hnext
  have hc : g.paxCursor < g.paxRecords.length := by
    by_contra hge
    push_neg at hge
    rw [List.drop_eq_nil_of_le hge] at hd
    cases hd
  obtain ⟨h1, rfl⟩ := hnext
  simp
  omega

/-! ### `SparseMap` -/

/-- The state of a `SparseMap`: the list contents (the drained / appended
    `(offset, length)` pairs) together with the engine state of the owning
    entry. -/
structure SparseMapSt where
  items : List (Int × Int) := []
  entry : EngineEntry := {}
  deriving DecidableEq, Repr

/-- `SparseMap._add_map(offset, length)`: registers the block through
    `ffi.entry_sparse_add_entry` and then appends to the list storage. -/
def SparseMap_add_map (s : SparseMapSt) (offset length : Int) : SparseMapSt :=
  { items := s.items ++ [(offset, length)],
    entry := ffi_entry_sparse_add_entry s.entry offset length }

/-- `SparseMap.extend(entry_sparse_map(entry_p))` as executed by
    `_update_from_entry`: the overridden `extend` lazily pulls the
    generator and calls `_add_map` on every yielded pair, so the engine's
    add-block primitive runs once per drained pair, interleaved with the
    iteration. -/
def SparseMap_extend_gen (s : SparseMapSt) : SparseMapSt :=
  match hnext : ffi_entry_sparse_next s.entry with
  | (st, bl, g1) =>
    if hok : st = ARCHIVE_OK then
      SparseMap_extend_gen (SparseMap_add_map { s with entry := g1 } bl.1 bl.2)
    else { s with entry := g1 }
termination_by s.entry.sparseBlocks.length - s.entry.sparseCursor
decreasing_by
  subst hok
  unfold ffi_entry_sparse_next at hnext
  rcases hd : s.entry.sparseBlocks.drop s.entry.sparseCursor with _ | ⟨bl2, tl⟩ <;>
    rw [hd] at hnext <;> simp [ARCHIVE_OK, ARCHIVE_WARN] at hnext
  have hc : s.entry.sparseCursor < s.entry.sparseBlocks.length := by
    by_contra hge
    push_neg at hge
    rw [List.drop_eq_nil_of_le hge] at hd
    cases hd
  obtain ⟨h1, rfl⟩ := hnext
  simp [SparseMap_add_map, ffi_entry_sparse_add_entry]
  omega

/-- `SparseMap._update_from_entry()` as run by `SparseMap.__init__` on an
    entry with a valid handle: reset the engine's sparse cursor, then
    `self.extend(entry_sparse_map(entry_p))` starting from the empty list
    the constructor made. -/
def SparseMap_update_from_entry (g : EngineEntry) : SparseMapSt :=
  SparseMap_extend_gen { items := [], entry := ffi_entry_sparse_reset g }

/-- `SparseMap.__setitem__(index, value)`: `raise NotImplementedError()`
    before anything else, so the map and engine are untouched (the error
    result carries no successor state). -/
def SparseMap_setitem (s : SparseMapSt) (index : Int) (value : Int × Int) :
    Except PyErr SparseMapSt :=
  .error .notImplementedError

/-- `SparseMap.insert(index, value)`: `raise NotImplementedError()`,
    likewise unconditionally and before any mutation. -/
def SparseMap_insert (s : SparseMapSt) (index : Int) (value : Int × Int) :
    Except PyErr SparseMapSt :=
  .error .notImplementedError

/-! ### `PaxHeaders` -/

/-- A Python `dict` with insertion order: an association list with unique
    keys (keys are Python strings, i.e. code-point lists). -/
abbrev PaxDict := List (List Nat × PyVal)

/-- `d[k]` lookup. -/
def paxDictLookup (d : PaxDict) (k : List Nat) : Option PyVal :=
  (d.find? (fun p => p.1 == k)).map (fun p => p.2)

/-- `dict.setdefault(k, v)`: insert only if the key is absent. -/
def paxDictSetdefault (d : PaxDict) (k : List Nat) (v : PyVal) : PaxDict :=
  if (d.find? (fun p => p.1 == k)).isSome then d else d ++ [(k, v)]

/-- `dict.__setitem__(k, v)`: replace in place if present, else append. -/
def paxDictSet (d : PaxDict) (k : List Nat) (v : PyVal) : PaxDict :=
  if (d.find? (fun p => p.1 == k)).isSome then
    d.map (fun p => if p.1 == k then (p.1, v) else p)
  else d ++ [(k, v)]

/-- `PaxHeaders._update_from_entry()` on an entry with a valid handle:
    reset the PAX cursor, walk `entry_pax_kw`, and `setdefault` each
    decoded record into the dict (set-only-if-absent, because the walk
    yields records in reverse declaration order).  `setdefault` does not
    touch the engine, so folding after the drain equals the source's
    interleaved loop. -/
def PaxHeaders_update_from_entry (g : EngineEntry) (d : PaxDict) :
    Except PyErr (PaxDict × EngineEntry) :=
  match entry_pax_kw (ffi_entry_pax_kw_reset g) with
  | (.ok prs, g1) => .ok (prs.foldl (fun d p => paxDictSetdefault d p.1 p.2) d, g1)
  | (.error e, g1) => .error e

/-- `PaxHeaders(archive_entry)` built by `ArchiveEntry.pax_headers()`:
    the dict starts empty (no positional or keyword initial values). -/
def PaxHeaders_new (g : EngineEntry) : Except PyErr (PaxDict × EngineEntry) :=
  PaxHeaders_update_from_entry g []

/-- Python `str(value)` for the value types in the model (used by
    `PaxHeaders.__setitem__` to coerce non-string, non-bytes values). -/
def pyStrCps (v : PyVal) : List Nat :=
  match v with
  | .str cps => cps
  | .bytes bs => bs
  | .int i => (toString i).data.map Char.toNat
  | .pyNone => [0x4E, 0x6F, 0x6E, 0x65]

/-- The coercion in `PaxHeaders.__setitem__`: `str` and `bytes` values pass
    through; anything else becomes `str(value)`. -/
def paxCoerceValue (v : PyVal) : PyVal :=
  match v with
  | .str _ => v
  | .bytes _ => v
  | _ => .str (pyStrCps v)

/-- Python `len(value)` for the value types `__setitem__` can pass to the
    engine: code-point count for `str`, byte count for `bytes` (other types
    cannot reach the `len` call, because the coercion has already run;
    the catch-all is arbitrary). -/
def pyLen (v : PyVal) : Nat :=
  match v with
  | .str cps => cps.length
  | .bytes bs => bs.length
  | _ => 0

/-- The UTF-8 encoded byte length of one code point (2-byte forms from
    `0x80`, 3-byte from `0x800`, 4-byte from `0x10000`). -/
def utf8CpLen (cp : Nat) : Nat :=
  if cp ≤ 0x7F then 1 else if cp ≤ 0x7FF then 2 else if cp ≤ 0xFFFF then 3 else 4

/-- The byte length of a value as the engine would store it: the UTF-8
    encoded length for `str` values (the source comments that the engine
    encodes strings to UTF-8 as needed), the byte count for `bytes`. -/
def pyByteLen (v : PyVal) : Nat :=
  match v with
  | .str cps => (cps.map utf8CpLen).sum
  | .bytes bs => bs.length
  | _ => 0

/-- `PaxHeaders.__setitem__(key, value)`: a non-`str` key raises
    `ValueError("need string keys")` before any state changes; a value that
    is neither `str` nor `bytes` is coerced via `str(value)`; then the pair
    is pushed to `ffi.entry_pax_kw_add_entry` with `len(value)` and finally
    stored in the dict. -/
def PaxHeaders_setitem (g : EngineEntry) (d : PaxDict) (key value : PyVal) :
    Except PyErr (EngineEntry × PaxDict) :=
  match key with
  | .str kcps =>
    let v := paxCoerceValue value
    let g1 := ffi_entry_pax_kw_add_entry g kcps v (pyLen v)
    .ok (g1, paxDictSet d kcps v)
  | _ => .error (.valueError ("need string keys"))

/-- The decoded form of one raw PAX record whose key is valid UTF-8
    (used to state the closed form of the drained `entry_pax_kw`
    generator). -/
def paxDecodedRecord (r : List Nat × List Nat) : List Nat × PyVal :=
  (unquote ((utf8DecodeStrict r.1).getD []),
   match utf8DecodeSE r.2 with
   | .ok cps => PyVal.str cps
   | .error _ => PyVal.bytes r.2)

/-! ### Helper lemmas -/

/-- A `bad` token from `utf8Step` carries exactly the head byte, and only
    arises for a non-ASCII head byte. -/
theorem utf8Step_bad {b : Nat} {r : List Nat} {bb : Nat}
    (h : (utf8Step b r).1 = Utf8Tok.bad bb) : bb = b ∧ 0x80 ≤ b := by
  unfold utf8Step at h
  repeat' split at h
  all_goals simp_all
  all_goals omega

/-- Every `bad` token produced by scanning genuine bytes (values `≤ 255`)
    carries a byte in `0x80`–`0xFF`: ASCII bytes always decode on their
    own, so strict UTF-8 errors only ever flag high bytes. -/
theorem utf8TokensGo_bad_range : ∀ (n : Nat) (l : List Nat), (∀ x ∈ l, x ≤ 255) →
    ∀ b, Utf8Tok.bad b ∈ utf8TokensGo n l → 0x80 ≤ b ∧ b ≤ 0xFF := by
  intro n
  induction n with
  | zero =>
    intro l hb b hmem
    cases l <;> simp [utf8TokensGo] at hmem
  | succ n ih =>
    intro l hb b hmem
    cases l with
    | nil => simp [utf8TokensGo] at hmem
    | cons a r =>
      rw [utf8TokensGo] at hmem
      rcases List.mem_cons.mp hmem with h | h
      · obtain ⟨rfl, hge⟩ := utf8Step_bad h.symm
        exact ⟨hge, hb b (by simp)⟩
      · refine ih (utf8Step a r).2.1 ?_ b h
        intro x hx
        exact hb x (List.mem_cons_of_mem a ((utf8Step a r).2.2.2 x hx))

/-- `utf8Tokens` version of `utf8TokensGo_bad_range`. -/
theorem utf8Tokens_bad_range {l : List Nat} (hb : ∀ x ∈ l, x ≤ 255) :
    ∀ b, Utf8Tok.bad b ∈ utf8Tokens l → 0x80 ≤ b ∧ b ≤ 0xFF :=
  utf8TokensGo_bad_range l.length l hb

/-- The surrogate-escape fold succeeds whenever every `bad` token is in the
    handler's byte range. -/
theorem utf8SeTok_ok (ts : List Utf8Tok)
    (h : ∀ b, Utf8Tok.bad b ∈ ts → 0x80 ≤ b ∧ b ≤ 0xFF) :
    ∃ cps, utf8SeTok ts = Except.ok cps := by
  induction ts with
  | nil => exact ⟨[], rfl⟩
  | cons t ts ih =>
    obtain ⟨cps, hcps⟩ := ih (fun b hb => h b (List.mem_cons_of_mem _ hb))
    cases t with
    | chr c => exact ⟨c :: cps, by simp [utf8SeTok, hcps, Except.map]⟩
    | bad b =>
      have hb1 := (h b (by simp)).1
      have hb2 := (h b (by simp)).2
      have hcond : (0x80 ≤ b && b ≤ 0xFF) = true := by
        simp only [Bool.and_eq_true, decide_eq_true_eq]
        exact ⟨hb1, hb2⟩
      exact ⟨(0xDC00 + b) :: cps, by simp [utf8SeTok, hcond, hcps, Except.map]⟩

/-- `bytes.decode('utf-8', 'surrogateescape')` never raises on genuine
    bytes. -/
theorem utf8DecodeSE_ok {bs : List Nat} (hb : ∀ x ∈ bs, x ≤ 255) :
    ∃ cps, utf8DecodeSE bs = Except.ok cps :=
  utf8SeTok_ok (utf8Tokens bs) (fun b hbad => utf8Tokens_bad_range hb b hbad)

/-- Characterization of a successful `ffi_entry_sparse_next` call: the
    cursor sat on the returned block and only the cursor advanced. -/
theorem ffi_entry_sparse_next_ok {g : EngineEntry} {bl : Int × Int} {g1 : EngineEntry}
    (h : ffi_entry_sparse_next g = (ARCHIVE_OK, bl, g1)) :
    g.sparseBlocks.drop g.sparseCursor = bl :: g.sparseBlocks.drop (g.sparseCursor + 1)
    ∧ g1 = { g with sparseCursor := g.sparseCursor + 1 } := by
  unfold ffi_entry_sparse_next at h
  rcases hd : g.sparseBlocks.drop g.sparseCursor with _ | ⟨b, tl⟩ <;> rw [hd] at h
  · simp [ARCHIVE_WARN, ARCHIVE_OK] at h
  · have hdr : g.sparseBlocks.drop (g.sparseCursor + 1) = tl := by
      rw [← List.tail_drop, hd]
      rfl
    simp only [Prod.mk.injEq] at h
    obtain ⟨-, h1, h2⟩ := h
    refine ⟨?_, h2.symm⟩
    rw [hdr, h1]

/-- A failed `ffi_entry_sparse_next` call: the cursor is past the end and
    the state is unchanged. -/
theorem ffi_entry_sparse_next_end {g : EngineEntry} {st : Int} {bl : Int × Int}
    {g1 : EngineEntry} (h : ffi_entry_sparse_next g = (st, bl, g1))
    (hne : st ≠ ARCHIVE_OK) :
    g.sparseBlocks.drop g.sparseCursor = [] ∧ g1 = g := by
  unfold ffi_entry_sparse_next at h
  rcases hd : g.sparseBlocks.drop g.sparseCursor with _ | ⟨b, tl⟩ <;> rw [hd] at h
  · simp only [Prod.mk.injEq] at h
    exact ⟨rfl, h.2.2.symm⟩
  · simp only [Prod.mk.injEq] at h
    exact absurd h.1.symm hne

/-- Closed form of the drained `entry_sparse_map` generator: it yields
    exactly the blocks from the cursor to the end and leaves the cursor at
    the end. -/
theorem entry_sparse_map_eq (g : EngineEntry) :
    entry_sparse_map g =
      (g.sparseBlocks.drop g.sparseCursor,
       { g with sparseCursor :=
           g.sparseCursor + (g.sparseBlocks.drop g.sparseCursor).length }) := by
  induction g using entry_sparse_map.induct with
  | case1 g bl g1 hnext ih =>
    obtain ⟨hd, hg1⟩ := ffi_entry_sparse_next_ok hnext
    subst hg1
    rw [entry_sparse_map, hnext]
    simp [ih, hd]
    omega
  | case2 g st bl g1 hnext hne =>
    obtain ⟨hd, hg1⟩ := ffi_entry_sparse_next_end hnext hne
    subst hg1
    rw [entry_sparse_map, hnext]
    simp [hd, hne]

/-- Closed form of `SparseMap_extend_gen`: it appends every remaining block
    to the list storage, registers each through the engine's add-block
    primitive, and leaves the cursor at the end. -/
theorem SparseMap_extend_gen_eq (s : SparseMapSt) :
    SparseMap_extend_gen s =
      { items := s.items ++ s.entry.sparseBlocks.drop s.entry.sparseCursor,
        entry := { s.entry with
          sparseCursor := s.entry.sparseCursor
            + (s.entry.sparseBlocks.drop s.entry.sparseCursor).length,
          sparseAdds := s.entry.sparseAdds
            ++ s.entry.sparseBlocks.drop s.entry.sparseCursor } } := by
  induction s using SparseMap_extend_gen.induct with
  | case1 s bl g1 hnext ih =>
    obtain ⟨hd, hg1⟩ := ffi_entry_sparse_next_ok hnext
    subst hg1
    rw [SparseMap_extend_gen, hnext]
    simp only [dite_eq_ite, if_pos rfl]
    rw [ih]
    simp [SparseMap_add_map, ffi_entry_sparse_add_entry, hd]
    omega
  | case2 s st bl g1 hnext hne =>
    obtain ⟨hd, hg1⟩ := ffi_entry_sparse_next_end hnext hne
    subst hg1
    rw [SparseMap_extend_gen, hnext]
    simp [hd, hne]

/-- Characterization of a successful `ffi_entry_pax_kw_next` call. -/
theorem ffi_entry_pax_kw_next_ok {g : EngineEntry} {r : List Nat × List Nat}
    {g1 : EngineEntry} (h : ffi_entry_pax_kw_next g = (ARCHIVE_OK, r, g1)) :
    g.paxRecords.drop g.paxCursor = r :: g.paxRecords.drop (g.paxCursor + 1)
    ∧ g1 = { g with paxCursor := g.paxCursor + 1 } := by
  unfold ffi_entry_pax_kw_next at h
  rcases hd : g.paxRecords.drop g.paxCursor with _ | ⟨b, tl⟩ <;> rw [hd] at h
  · simp [ARCHIVE_WARN, ARCHIVE_OK] at h
  · have hdr : g.paxRecords.drop (g.paxCursor + 1) = tl := by
      rw [← List.tail_drop, hd]
      rfl
    simp only [Prod.mk.injEq] at h
    obtain ⟨-, h1, h2⟩ := h
    refine ⟨?_, h2.symm⟩
    rw [hdr, h1]

/-- A failed `ffi_entry_pax_kw_next` call: cursor past the end, state
    unchanged. -/
theorem ffi_entry_pax_kw_next_end {g : EngineEntry} {st : Int}
    {r : List Nat × List Nat} {g1 : EngineEntry}
    (h : ffi_entry_pax_kw_next g = (st, r, g1)) (hne : st ≠ ARCHIVE_OK) :
    g.paxRecords.drop g.paxCursor = [] ∧ g1 = g := by
  unfold ffi_entry_pax_kw_next at h
  rcases hd : g.paxRecords.drop g.paxCursor with _ | ⟨b, tl⟩ <;> rw [hd] at h
  · simp only [Prod.mk.injEq] at h
    exact ⟨rfl, h.2.2.symm⟩
  · simp only [Prod.mk.injEq] at h
    exact absurd h.1.symm hne

/-- `decode_pax_kw` on a record with a UTF-8-valid key never raises and
    produces `paxDecodedRecord`. -/
theorem decode_pax_kw_ok {k v : List Nat} (h : (utf8DecodeStrict k).isSome) :
    decode_pax_kw k v = Except.ok (paxDecodedRecord (k, v)) := by
  obtain ⟨ks, hks⟩ := Option.isSome_iff_exists.mp h
  unfold decode_pax_kw paxDecodedRecord
  rw [hks]
  simp [hks]

/-- Closed form of the drained `entry_pax_kw` generator when every
    remaining record's key is valid UTF-8: it decodes the remaining records
    in order, terminates by ordinary exhaustion (an `ok` result), and
    leaves the cursor at the end. -/
theorem entry_pax_kw_eq : ∀ g : EngineEntry,
    (∀ r ∈ g.paxRecords.drop g.paxCursor, (utf8DecodeStrict r.1).isSome) →
    entry_pax_kw g =
      (Except.ok ((g.paxRecords.drop g.paxCursor).map paxDecodedRecord),
       { g with paxCursor := g.paxCursor + (g.paxRecords.drop g.paxCursor).length }) := by
  intro g
  induction g using entry_pax_kw.induct with
  | case1 g r g1 e herr hnext =>
    intro h
    obtain ⟨hd, hg1⟩ := ffi_entry_pax_kw_next_ok hnext
    have hr : r ∈ g.paxRecords.drop g.paxCursor := by rw [hd]; simp
    rw [decode_pax_kw_ok (h r hr)] at herr
    cases herr
  | case2 g r g1 p hdec rest g2 hrec hnext ih =>
    intro h
    obtain ⟨hd, hg1⟩ := ffi_entry_pax_kw_next_ok hnext
    have hr : r ∈ g.paxRecords.drop g.paxCursor := by rw [hd]; simp
    have hsub : ∀ x ∈ g1.paxRecords.drop g1.paxCursor,
        (utf8DecodeStrict x.1).isSome := by
      intro x hx
      refine h x ?_
      rw [hd]
      subst hg1
      simp only at hx
      exact List.mem_cons_of_mem _ hx
    have ihc := ih hsub
    rw [entry_pax_kw, hnext]
    simp only [dite_eq_ite, eq_self_iff_true, if_true]
    rw [decode_pax_kw_ok (h r hr), ihc]
    subst hg1
    simp [hd]
    omega
  | case3 g r g1 p hdec e g2 hrec hnext ih =>
    intro h
    obtain ⟨hd, hg1⟩ := ffi_entry_pax_kw_next_ok hnext
    have hsub : ∀ x ∈ g1.paxRecords.drop g1.paxCursor,
        (utf8DecodeStrict x.1).isSome := by
      intro x hx
      refine h x ?_
      rw [hd]
      subst hg1
      simp only at hx
      exact List.mem_cons_of_mem _ hx
    have ihc := ih hsub
    rw [ihc] at hrec
    cases hrec
  | case4 g st r g1 hnext hne =>
    intro h
    obtain ⟨hd, hg1⟩ := ffi_entry_pax_kw_next_end hnext hne
    subst hg1
    rw [entry_pax_kw, hnext]
    simp [hd, hne]

/-- Lookup after appending a single binding. -/
theorem paxDictLookup_append (d : PaxDict) (k k2 : List Nat) (v : PyVal) :
    paxDictLookup (d ++ [(k2, v)]) k =
      (paxDictLookup d k).or (if k2 == k then some v else none) := by
  unfold paxDictLookup
  rw [List.find?_append]
  cases hf : d.find? (fun p => p.1 == k) with
  | some w => simp
  | none =>
    by_cases hk : (k2 == k) = true <;> simp [List.find?, hk]

/-- Lookup through the `setdefault` fold that populates `PaxHeaders`:
    an existing binding wins, else the first matching record of the walk. -/
theorem paxDict_foldl_setdefault :
    ∀ (prs : List (List Nat × PyVal)) (d : PaxDict) (k : List Nat),
    paxDictLookup (prs.foldl (fun d p => paxDictSetdefault d p.1 p.2) d) k =
      (paxDictLookup d k).or
        ((prs.find? (fun p => p.1 == k)).map (fun p => p.2)) := by
  intro prs
  induction prs with
  | nil =>
    intro d k
    simp
  | cons p prs ih =>
    intro d k
    rw [List.foldl_cons, ih]
    unfold paxDictSetdefault
    by_cases hs : (d.find? (fun q => q.1 == p.1)).isSome
    · rw [if_pos hs]
      by_cases hk : (p.1 == k) = true
      · have hk2 : p.1 = k := by simpa using hk
        subst hk2
        have : (paxDictLookup d p.1).isSome := by
          unfold paxDictLookup
          simpa using hs
        obtain ⟨w, hw⟩ := Option.isSome_iff_exists.mp this
        rw [hw]
        simp [List.find?, hk]
      · simp [List.find?, hk]
    · rw [if_neg hs]
      rw [paxDictLookup_append]
      by_cases hk : (p.1 == k) = true
      · have hk2 : p.1 = k := by simpa using hk
        subst hk2
        have hnone : paxDictLookup d p.1 = none := by
          unfold paxDictLookup
          cases hfd : d.find? (fun q => q.1 == p.1) with
          | some w => exact absurd (by simp [hfd]) hs
          | none => rfl
        rw [hnone]
        simp [List.find?, hk]
      · simp [List.find?, hk]

/-! ### Claims -/

/-- C1: for both iteration functions, the engine's end-of-sequence
    ("warning"-level) status ends the lazy sequence as ordinary
    exhaustion.  `entry_sparse_map` delivers exactly the remaining blocks
    as a plain finite list (no failure outcome exists on that path), and
    `entry_pax_kw` terminates with an `ok` record list — not a raised
    failure — whenever the remaining records' keys decode (key decoding
    being the only exception that generator can raise, unrelated to the
    end-of-iteration status). -/
theorem c1_end_of_iteration_is_exhaustion :
    (∀ g : EngineEntry,
      (entry_sparse_map g).1 = g.sparseBlocks.drop g.sparseCursor)
    ∧ (∀ g : EngineEntry,
        (∀ r ∈ g.paxRecords.drop g.paxCursor, (utf8DecodeStrict r.1).isSome) →
        (entry_pax_kw g).1 =
          Except.ok ((g.paxRecords.drop g.paxCursor).map paxDecodedRecord)) := by
  constructor
  · intro g
    rw [entry_sparse_map_eq]
  · intro g h
    rw [entry_pax_kw_eq g h]

/-- Witness for C1 at a one-block, one-record engine entry. -/
theorem c1_end_of_iteration_is_exhaustion_witness :
    (entry_sparse_map { sparseBlocks := [(4096, 4096)] }).1 = [(4096, 4096)]
    ∧ (entry_pax_kw { paxRecords := [([97], [66])] }).1 =
        Except.ok [([97], PyVal.str [66])] := by
  constructor
  · rw [c1_end_of_iteration_is_exhaustion.1]
    decide
  · rw [c1_end_of_iteration_is_exhaustion.2 _ (by decide)]
    rfl

/-- C2 counterexample: constructing a `SparseMap` over an engine entry
    holding one sparse block registers that drained block back into the
    engine through the add-block primitive (`_update_from_entry` calls the
    overridden `extend`, which calls `_add_map`), so the claim that no
    drained pair is registered on the initial read is false. -/
theorem c2_counterexample :
    (SparseMap_update_from_entry { sparseBlocks := [(4096, 4096)] }).entry.sparseAdds
      = [(4096, 4096)] := by
  rw [SparseMap_update_from_entry, SparseMap_extend_gen_eq]
  decide

/-- C2 (amended): during construction the map resets the engine's sparse
    cursor and drains every (offset, length) pair into local storage, and
    it also registers every drained pair back into the engine via the
    add-block primitive — the initial read reuses the caller-facing write
    path (`extend` → `_add_map`), so the engine's add trace grows by
    exactly the drained blocks. -/
theorem c2_construction_registers_drained_blocks (g : EngineEntry) :
    SparseMap_update_from_entry g =
      { items := g.sparseBlocks,
        entry := { g with
          sparseCursor := g.sparseBlocks.length,
          sparseAdds := g.sparseAdds ++ g.sparseBlocks } } := by
  rw [SparseMap_update_from_entry, SparseMap_extend_gen_eq]
  simp [ffi_entry_sparse_reset]

/-- C3 counterexample: on an entry whose handle is invalidated, reading
    `filetype` does not fail with the stale-handle guard (the
    `ValueError` that `entry_p` raises); the property hands the dead raw
    handle to the engine instead. -/
theorem c3_counterexample :
    ArchiveEntry.filetype { _entry_p := none } ≠
      Except.error (PyErr.valueError ("attempt to use entry_p when not valid")) := by
  intro h
  exact PyErr.noConfusion (Except.error.inj h)

/-- C3 (amended): only the explicit `entry_p` accessor guards an
    invalidated handle, raising `ValueError("attempt to use entry_p when
    not valid")` (the spec's StaleHandle); the metadata properties
    (`filetype`, `uid`, `gid`, `mode`, the `atime` timestamp, `size`,
    `pathname`) read the raw `_entry_p` attribute without any staleness
    check and proceed into the engine with the dead handle. -/
theorem c3_only_entry_p_guards_invalid_handle :
    ArchiveEntry.entry_p { _entry_p := none } =
      Except.error (PyErr.valueError ("attempt to use entry_p when not valid"))
    ∧ ArchiveEntry.filetype { _entry_p := none } = Except.error PyErr.nullHandleCrash
    ∧ ArchiveEntry.uid { _entry_p := none } = Except.error PyErr.nullHandleCrash
    ∧ ArchiveEntry.gid { _entry_p := none } = Except.error PyErr.nullHandleCrash
    ∧ ArchiveEntry.mode { _entry_p := none } = Except.error PyErr.nullHandleCrash
    ∧ ArchiveEntry.atime { _entry_p := none } = Except.error PyErr.nullHandleCrash
    ∧ ArchiveEntry.size { _entry_p := none } = Except.error PyErr.nullHandleCrash
    ∧ ArchiveEntry.pathname { _entry_p := none } = Except.error PyErr.nullHandleCrash :=
  ⟨rfl, rfl, rfl, rfl, rfl, rfl, rfl, rfl⟩

/-- C4: `PaxHeaders` construction populates the dict with `setdefault`
    (set-only-if-absent) over the walked records, so for every key `k` the
    cached value — what `pax_headers()[k]` returns — is the value of the
    first record seen during the walk with key `k` (which, the engine
    yielding records in reverse declaration order, is the last-declared
    record of the archive). -/
theorem c4_first_seen_record_wins (g : EngineEntry)
    (prs : List (List Nat × PyVal)) (gf : EngineEntry) (k : List Nat)
    (h : entry_pax_kw (ffi_entry_pax_kw_reset g) = (Except.ok prs, gf)) :
    ∃ d, PaxHeaders_new g = Except.ok (d, gf)
      ∧ paxDictLookup d k = (prs.find? (fun p => p.1 == k)).map (fun p => p.2) := by
  refine ⟨prs.foldl (fun d p => paxDictSetdefault d p.1 p.2) [], ?_, ?_⟩
  · unfold PaxHeaders_new PaxHeaders_update_from_entry
    rw [h]
  · rw [paxDict_foldl_setdefault]
    simp [paxDictLookup]

/-- Witness for C4: the key `"a"` appears twice in walk order with values
    `"B"` then `"C"`; the cached value is the first-seen `"B"`. -/
theorem c4_first_seen_record_wins_witness :
    ∃ d, PaxHeaders_new { paxRecords := [([97], [66]), ([97], [67])] } =
        Except.ok (d, { paxRecords := [([97], [66]), ([97], [67])], paxCursor := 2 })
      ∧ paxDictLookup d [97] =
          (([([97], PyVal.str [66]), ([97], PyVal.str [67])].find?
              (fun p => p.1 == [97])).map (fun p => p.2)) := by
  apply c4_first_seen_record_wins
  have h := entry_pax_kw_eq
    (ffi_entry_pax_kw_reset { paxRecords := [([97], [66]), ([97], [67])] })
    (by decide)
  rw [h]
  rfl

/-- C5: for every entry with a valid handle, `isdev` is true iff exactly
    one of `ischr`, `isblk`, `isfifo`, `issock` is true (the four
    mask-and-compare predicates over `mode & 0o170000` are mutually
    exclusive, so the source's plain `or` already means "exactly one"), and
    `isdev` is false whenever the entry is a regular file, a directory, or
    a symlink. -/
theorem c5_isdev_exactly_one (g : EngineEntry) :
    (ArchiveEntry.isdev { _entry_p := some g } = Except.ok true ↔
      ((ArchiveEntry.ischr { _entry_p := some g } = Except.ok true
          ∧ ArchiveEntry.isblk { _entry_p := some g } = Except.ok false
          ∧ ArchiveEntry.isfifo { _entry_p := some g } = Except.ok false
          ∧ ArchiveEntry.issock { _entry_p := some g } = Except.ok false)
        ∨ (ArchiveEntry.ischr { _entry_p := some g } = Except.ok false
          ∧ ArchiveEntry.isblk { _entry_p := some g } = Except.ok true
          ∧ ArchiveEntry.isfifo { _entry_p := some g } = Except.ok false
          ∧ ArchiveEntry.issock { _entry_p := some g } = Except.ok false)
        ∨ (ArchiveEntry.ischr { _entry_p := some g } = Except.ok false
          ∧ ArchiveEntry.isblk { _entry_p := some g } = Except.ok false
          ∧ ArchiveEntry.isfifo { _entry_p := some g } = Except.ok true
          ∧ ArchiveEntry.issock { _entry_p := some g } = Except.ok false)
        ∨ (ArchiveEntry.ischr { _entry_p := some g } = Except.ok false
          ∧ ArchiveEntry.isblk { _entry_p := some g } = Except.ok false
          ∧ ArchiveEntry.isfifo { _entry_p := some g } = Except.ok false
          ∧ ArchiveEntry.issock { _entry_p := some g } = Except.ok true)))
    ∧ ((ArchiveEntry.isreg { _entry_p := some g } = Except.ok true
        ∨ ArchiveEntry.isdir { _entry_p := some g } = Except.ok true
        ∨ ArchiveEntry.issym { _entry_p := some g } = Except.ok true) →
      ArchiveEntry.isdev { _entry_p := some g } = Except.ok false) := by
  have hchr : ArchiveEntry.ischr { _entry_p := some g } =
      Except.ok (Int.land g.filetypeVal 0o170000 == 0o020000) := rfl
  have hblk : ArchiveEntry.isblk { _entry_p := some g } =
      Except.ok (Int.land g.filetypeVal 0o170000 == 0o060000) := rfl
  have hfifo : ArchiveEntry.isfifo { _entry_p := some g } =
      Except.ok (Int.land g.filetypeVal 0o170000 == 0o010000) := rfl
  have hsock : ArchiveEntry.issock { _entry_p := some g } =
      Except.ok (Int.land g.filetypeVal 0o170000 == 0o140000) := rfl
  have hreg : ArchiveEntry.isreg { _entry_p := some g } =
      Except.ok (Int.land g.filetypeVal 0o170000 == 0o100000) := rfl
  have hdir : ArchiveEntry.isdir { _entry_p := some g } =
      Except.ok (Int.land g.filetypeVal 0o170000 == 0o040000) := rfl
  have hsym : ArchiveEntry.issym { _entry_p := some g } =
      Except.ok (Int.land g.filetypeVal 0o170000 == 0o120000) := rfl
  have hdev : ArchiveEntry.isdev { _entry_p := some g } =
      Except.ok ((Int.land g.filetypeVal 0o170000 == 0o020000)
        || (Int.land g.filetypeVal 0o170000 == 0o060000)
        || (Int.land g.filetypeVal 0o170000 == 0o010000)
        || (Int.land g.filetypeVal 0o170000 == 0o140000)) := by
    show (do
      let c ← ArchiveEntry.ischr { _entry_p := some g }
      if c then pure true else do
      let bk ← ArchiveEntry.isblk { _entry_p := some g }
      if bk then pure true else do
      let f ← ArchiveEntry.isfifo { _entry_p := some g }
      if f then pure true else ArchiveEntry.issock { _entry_p := some g }) = _
    rw [hchr, hblk, hfifo, hsock]
    cases h1 : (Int.land g.filetypeVal 0o170000 == 0o020000) <;>
      cases h2 : (Int.land g.filetypeVal 0o170000 == 0o060000) <;>
        cases h3 : (Int.land g.filetypeVal 0o170000 == 0o010000) <;>
          cases h4 : (Int.land g.filetypeVal 0o170000 == 0o140000) <;>
            simp [Except.bind, Except.pure, pure, bind]
  rw [hchr, hblk, hfifo, hsock, hreg, hdir, hsym, hdev]
  simp only [Except.ok.injEq, Bool.or_eq_true, Bool.or_eq_false_iff, beq_iff_eq,
    beq_eq_false_iff_ne, ne_eq]
  generalize Int.land g.filetypeVal 0o170000 = m
  omega

/-- Witness for C5: a character device is a device with exactly `ischr`
    set; a regular file is not a device. -/
theorem c5_isdev_exactly_one_witness :
    ArchiveEntry.isdev { _entry_p := some { filetypeVal := 0o020000 } } = Except.ok true
    ∧ ArchiveEntry.isdev { _entry_p := some { filetypeVal := 0o100000 } } =
        Except.ok false := by
  constructor
  · exact (c5_isdev_exactly_one { filetypeVal := 0o020000 }).1.mpr
      (Or.inl ⟨rfl, rfl, rfl, rfl⟩)
  · exact (c5_isdev_exactly_one { filetypeVal := 0o100000 }).2 (Or.inl rfl)

/-- C6: for every raw PAX record whose key is valid UTF-8 (what the PAX
    standard guarantees and the spec assumes of keys), `decode_pax_kw`
    returns the key bytes decoded as UTF-8 and then percent-decoded, and
    the value decoded as UTF-8 with surrogate-escape recovery, keeping the
    raw bytes only if that decode fails; the result is `ok` — no decoding
    failure reaches the caller. -/
theorem c6_decode_record (key value ks : List Nat)
    (h : utf8DecodeStrict key = some ks) :
    decode_pax_kw key value =
      Except.ok (unquote ks,
        match utf8DecodeSE value with
        | .ok cps => PyVal.str cps
        | .error _ => PyVal.bytes value) := by
  unfold decode_pax_kw
  rw [h]

/-- Witness for C6: key `"a%41"` percent-decodes to `"aA"` after UTF-8
    decoding; the value é (UTF-8 `C3 A9`) decodes to the single code point
    `0xE9`. -/
theorem c6_decode_record_witness :
    decode_pax_kw [97, 37, 52, 49] [195, 169] =
      Except.ok ([97, 65], PyVal.str [233]) := by
  have h := c6_decode_record [97, 37, 52, 49] [195, 169] [97, 37, 52, 49] (by decide)
  rw [h]
  rfl

/-- C7: the time codec returns the float `seconds + nanos / 1e9` (floats
    modelled as exact rationals) when `nanos` is non-zero, and the integer
    `seconds` when it is zero; it is total, with no error outcome. -/
theorem c7_format_time (seconds nanos : Int) :
    (nanos ≠ 0 →
      format_time seconds nanos =
        PyNum.float ((seconds : ℚ) + (nanos : ℚ) / 1000000000))
    ∧ (nanos = 0 → format_time seconds nanos = PyNum.int seconds) := by
  constructor
  · intro h
    rw [format_time, if_pos h]
  · intro h
    rw [format_time, if_neg (not_not_intro h)]

/-- Witness for C7 at `(5, 500000000)` and `(7, 0)`. -/
theorem c7_format_time_witness :
    format_time 5 500000000 = PyNum.float ((5 : ℚ) + (500000000 : ℚ) / 1000000000)
    ∧ format_time 7 0 = PyNum.int 7 :=
  ⟨(c7_format_time 5 500000000).1 (by decide), (c7_format_time 7 0).2 rfl⟩

/-- C8: positional replacement and positional insertion on a `SparseMap`
    fail with `NotImplementedError` (the spec's UnsupportedMutation) for
    every state, index and value; the raise precedes any mutation, so the
    error result carries no successor state and the map is unchanged. -/
theorem c8_positional_mutation_unsupported (s : SparseMapSt) (index : Int)
    (value : Int × Int) :
    SparseMap_setitem s index value = Except.error PyErr.notImplementedError
    ∧ SparseMap_insert s index value = Except.error PyErr.notImplementedError :=
  ⟨rfl, rfl⟩

/-- C9 counterexample: setting the PAX value `'é'` (one character, two
    UTF-8 bytes) pushes length 1 — Python `len(value)`, the character
    count — to the engine's registration primitive, while the byte length
    of the value as the engine stores it is 2.  The claim's "explicit byte
    length" is false for non-ASCII string values. -/
theorem c9_counterexample :
    (PaxHeaders_setitem {} [] (PyVal.str [107]) (PyVal.str [233])).map
        (fun p => p.1.paxAdds.map (fun c => c.2.2)) = Except.ok [1]
    ∧ pyByteLen (PyVal.str [233]) = 2 :=
  ⟨rfl, rfl⟩

/-- C9 (amended): a non-string key fails with `ValueError("need string
    keys")` before any state changes; a value that is neither `str` nor
    `bytes` is coerced via `str(value)`; the accepted pair is pushed to the
    engine's PAX registration primitive with an explicit length equal to
    Python `len(value)` — the character count for `str` values (a byte
    count only for `bytes` values) — and then stored in the local cache,
    keeping engine and cache in sync. -/
theorem c9_setitem_behaviour :
    (∀ (g : EngineEntry) (d : PaxDict) (kcps : List Nat) (value : PyVal),
      PaxHeaders_setitem g d (PyVal.str kcps) value =
        Except.ok
          (ffi_entry_pax_kw_add_entry g kcps (paxCoerceValue value)
            (pyLen (paxCoerceValue value)),
           paxDictSet d kcps (paxCoerceValue value)))
    ∧ (∀ (g : EngineEntry) (d : PaxDict) (i : Int) (value : PyVal),
        PaxHeaders_setitem g d (PyVal.int i) value =
          Except.error (PyErr.valueError ("need string keys")))
    ∧ (∀ (g : EngineEntry) (d : PaxDict) (bs : List Nat) (value : PyVal),
        PaxHeaders_setitem g d (PyVal.bytes bs) value =
          Except.error (PyErr.valueError ("need string keys")))
    ∧ (∀ i : Int, paxCoerceValue (PyVal.int i) =
        PyVal.str ((toString i).data.map Char.toNat)) :=
  ⟨fun _ _ _ _ => rfl, fun _ _ _ _ => rfl, fun _ _ _ _ => rfl, fun _ => rfl⟩

/-- C10: for every PAX record over genuine bytes, the value side of
    `decode_pax_kw` is a string — the raw-bytes fallback is unreachable,
    because UTF-8 decoding with the surrogate-escape handler succeeds on
    every byte sequence (the handler escapes exactly the bytes `0x80`–`0xFF`
    that strict decoding can flag). -/
theorem c10_value_fallback_unreachable (key value : List Nat)
    (hv : ∀ b ∈ value, b ≤ 255) :
    (∃ cps, utf8DecodeSE value = Except.ok cps)
    ∧ ∀ k v, decode_pax_kw key value = Except.ok (k, v) →
        ∃ cps, v = PyVal.str cps := by
  obtain ⟨cps, hcps⟩ := utf8DecodeSE_ok hv
  refine ⟨⟨cps, hcps⟩, ?_⟩
  intro k v h
  unfold decode_pax_kw at h
  cases hks : utf8DecodeStrict key with
  | none =>
    rw [hks] at h
    cases h
  | some ks =>
    rw [hks] at h
    simp only [Except.ok.injEq, Prod.mk.injEq] at h
    refine ⟨cps, ?_⟩
    rw [← h.2, hcps]

/-- Witness for C10 at the invalid-UTF-8 value `FF 41`: the
    surrogate-escape decode succeeds (producing `0xDCFF`, `'A'`), so the
    decoded value is a string, not bytes. -/
theorem c10_value_fallback_unreachable_witness :
    (∃ cps, utf8DecodeSE [255, 65] = Except.ok cps)
    ∧ ∀ k v, decode_pax_kw [97] [255, 65] = Except.ok (k, v) →
        ∃ cps, v = PyVal.str cps :=
  c10_value_fallback_unreachable [97] [255, 65] (by decide)
